import Mathlib

/-!
Verification of the HydraStack SSR engine (`src/engine/src/HydraSsrPlugin.cc`,
`src/hydrastack/scaffold/engine/src/V8IsolatePool.cc`,
`src/hydrastack/scaffold/engine/src/V8SsrRuntime.cc`,
`src/engine/src/HtmlShell.cc`) through a shallow embedding.

Modelling conventions:
* C++ `std::string` is Lean `String`; byte-level helpers operate on `List Char`
  (request inputs are ASCII in every claim considered here).
* `jsoncpp` values are the inductive `JVal`; `Json::parseFromStream` is an
  opaque parameter `parse : String → Option JVal` (`none` = parse failure),
  since jsoncpp is a third-party library, not part of this repository.
  Numeric JSON values are modelled as integers.
* `std::unordered_map<std::string, std::string>` header maps are association
  lists with exact-key lookup; map iteration order is abstracted (no claim
  depends on it).
* C++ exceptions are `Except String α` carrying the `what()` message.
* Wall-clock time (watchdog scheduling, latency observation, histograms) is
  not modelled; only the monotonic counters that the claims mention are.
-/

namespace Hydra

/-- Model of `std::isspace` in the C locale, restricted to ASCII. -/
def isAsciiSpace (c : Char) : Bool :=
  c = ' ' ∨ c = '\t' ∨ c = '\n' ∨ c = Char.ofNat 11 ∨ c = Char.ofNat 12 ∨ c = '\r'

/-- Translation of `trimAsciiWhitespace` from `HydraSsrPlugin.cc`: strip leading and trailing
ASCII whitespace. -/
def trimAsciiWhitespace (value : String) : String :=
  String.mk (((value.data.dropWhile isAsciiSpace).reverse.dropWhile isAsciiSpace).reverse)

/-- Translation of `toLowerCopy` from `HydraSsrPlugin.cc` (`std::tolower` over the bytes). -/
def toLowerCopy (value : String) : String :=
  String.mk (value.data.map Char.toLower)

/-- Substring test on character lists, modelling `std::string::find != npos`. -/
def containsSub (needle : List Char) : List Char → Bool
  | [] => needle.isEmpty
  | c :: rest => needle.isPrefixOf (c :: rest) || containsSub needle rest

/-- Translation of `containsText` from `HydraSsrPlugin.cc`: `value.find(needle) != npos`. -/
def containsText (value needle : String) : Bool :=
  containsSub needle.data value.data

/-- First character of `renderOutput` that is not ASCII whitespace
(`std::find_if_not(..., isspace)` in `tryParseSsrEnvelope`). -/
def firstNonWsChar (s : String) : Option Char :=
  s.data.find? (fun c => !isAsciiSpace c)

/-- Translation of `isLikelyFullDocument` from `HydraSsrPlugin.cc`. -/
def isLikelyFullDocument (html : String) : Bool :=
  containsText html "<html" || containsText html "<!doctype" || containsText html "<!DOCTYPE"

/-- jsoncpp `Json::Value`, with numbers restricted to the integers
(all numeric values appearing in the claims are integral). -/
inductive JVal where
  | null : JVal
  | bool (b : Bool) : JVal
  | num (n : Int) : JVal
  | str (s : String) : JVal
  | arr (items : List JVal) : JVal
  | obj (members : List (String × JVal)) : JVal

/-- Member lookup in a JSON object (`isMember` / `operator[]`). -/
def jsonLookup : List (String × JVal) → String → Option JVal
  | [], _ => none
  | (k, v) :: rest, key => if k = key then some v else jsonLookup rest key

/-- Member assignment in a JSON object (`value[key] = v`): replace the
existing member or append a new one. -/
def jsonSet : List (String × JVal) → String → JVal → List (String × JVal)
  | [], key, v => [(key, v)]
  | (k0, v0) :: rest, key, v =>
    if k0 = key then (key, v) :: rest else (k0, v0) :: jsonSet rest key v

/-- String escaping used by the jsoncpp compact writer on the characters that
occur in this development. -/
def jsonEscapeChar (c : Char) : String :=
  if c = '"' then "\\\""
  else if c = '\\' then "\\\\"
  else if c = '\n' then "\\n"
  else if c = '\r' then "\\r"
  else if c = '\t' then "\\t"
  else String.mk [c]

/-- Interleave a separator between serialized fragments. -/
def joinComma : List String → String
  | [] => ""
  | [s] => s
  | s :: rest => s ++ "," ++ joinComma rest

mutual
/-- Translation of `toCompactJson` from `HydraSsrPlugin.cc`: the jsoncpp `StreamWriterBuilder`
with empty indentation, i.e. a compact JSON serialization. -/
def toCompactJson : JVal → String
  | .null => "null"
  | .bool b => if b then "true" else "false"
  | .num n => toString n
  | .str s => "\"" ++ String.join (s.data.map jsonEscapeChar) ++ "\""
  | .arr items => "[" ++ joinComma (serializeItems items) ++ "]"
  | .obj members => "\x7b" ++ joinComma (serializeMembers members) ++ "\x7d"

/-- Serialize the elements of a JSON array. -/
def serializeItems : List JVal → List String
  | [] => []
  | v :: rest => toCompactJson v :: serializeItems rest

/-- Serialize the members of a JSON object. -/
def serializeMembers : List (String × JVal) → List String
  | [] => []
  | (k, v) :: rest =>
    ("\"" ++ String.join (k.data.map jsonEscapeChar) ++ "\":" ++ toCompactJson v)
      :: serializeMembers rest
end

/-- Header-map lookup (`std::unordered_map::find`, exact key match). -/
def headerFind : List (String × String) → String → Option String
  | [], _ => none
  | (k, v) :: rest, key => if k = key then some v else headerFind rest key

/-- Header-map assignment (`headers[key] = value`). -/
def headerSet : List (String × String) → String → String → List (String × String)
  | [], key, v => [(key, v)]
  | (k0, v0) :: rest, key, v =>
    if k0 = key then (key, v) :: rest else (k0, v0) :: headerSet rest key v

/-- Header-map `try_emplace`: insert only when the key is absent. -/
def headerTryEmplace : List (String × String) → String → String → List (String × String)
  | [], key, v => [(key, v)]
  | (k0, v0) :: rest, key, v =>
    if k0 = key then (k0, v0) :: rest else (k0, v0) :: headerTryEmplace rest key v

/-- Translation of `SsrRenderResult` from `HydraSsrPlugin.h`: html, HTTP status and headers. -/
structure SsrRenderResult where
  html : String
  status : Int
  headers : List (String × String)
deriving DecidableEq

/-- jsoncpp `Json::Value::asInt`: defined for null, bool and numeric values;
`none` models the `Json::LogicError` thrown for strings, arrays and objects. -/
def jvalAsInt : JVal → Option Int
  | .null => some 0
  | .bool b => some (if b then 1 else 0)
  | .num n => some n
  | _ => none

/-- Header extraction from an envelope (`tryParseSsrEnvelope`, lines 619-630):
string, bool and numeric members of the `headers` object become header
entries; other member kinds are dropped, and a missing or non-object
`headers` member yields no entries. -/
def envelopeHeaders : Option JVal → List (String × String)
  | some (.obj hs) =>
    hs.foldl
      (fun acc p =>
        match p.2 with
        | .str s => headerSet acc p.1 s
        | .bool b => headerSet acc p.1 (if b then "true" else "false")
        | .num n => headerSet acc p.1 (toString n)
        | _ => acc)
      []
  | _ => []

/-- The redirect normalization at the tail of `tryParseSsrEnvelope`
(lines 632-643): a string `redirect` member with a non-empty trimmed value
sets `Location` and forces the status to 302 unless it is already 3xx;
otherwise a `Location` header with a non-3xx status alone forces 302. -/
def applyRedirectRule (redirectVal : Option JVal) (html : String) (status : Int)
    (headers0 : List (String × String)) : SsrRenderResult :=
  match redirectVal with
  | some (.str r) =>
    let target := trimAsciiWhitespace r
    if target ≠ "" then
      { html := html,
        status := if status < 300 ∨ status > 399 then 302 else status,
        headers := headerSet headers0 "Location" target }
    else { html := html, status := status, headers := headers0 }
  | _ =>
    if (headerFind headers0 "Location").isSome ∧ (status < 300 ∨ status > 399) then
      { html := html, status := 302, headers := headers0 }
    else { html := html, status := status, headers := headers0 }

/-- Translation of `tryParseSsrEnvelope` from `HydraSsrPlugin.cc` (lines 589-646).
The `.error` result models the jsoncpp exception thrown by
`payload.get("status", 200).asInt()` on a non-convertible status member;
that exception escapes into the render pipeline's catch blocks. -/
def tryParseSsrEnvelope (parse : String → Option JVal) (renderOutput : String) :
    Except String (Option SsrRenderResult) :=
  match firstNonWsChar renderOutput with
  | none => .ok none
  | some c =>
    if c ≠ '{' then .ok none
    else
      match parse renderOutput with
      | some (.obj members) =>
        match jsonLookup members "html" with
        | none => .ok none
        | some htmlVal =>
          let html := match htmlVal with | .str s => s | _ => ""
          match jvalAsInt ((jsonLookup members "status").getD (.num 200)) with
          | none => .error "Json::Value::asInt(): value is not convertible to Int"
          | some st =>
            let status : Int := if 100 ≤ st ∧ st ≤ 599 then st else 200
            let headers0 := envelopeHeaders (jsonLookup members "headers")
            .ok (some (applyRedirectRule (jsonLookup members "redirect") html status headers0))
      | _ => .ok none

/-- Worker for `splitOnChar`: accumulate the current chunk (reversed) while
walking the characters. -/
def splitOnCharGo (c : Char) (acc : List Char) : List Char → List String
  | [] => [String.mk acc.reverse]
  | x :: rest =>
    if x = c then String.mk acc.reverse :: splitOnCharGo c [] rest
    else splitOnCharGo c (x :: acc) rest

/-- The comma/semicolon splitting loops of `parseAcceptLanguageCandidates`
(`find(',')` + `substr` in a loop): split on every occurrence of `c`,
keeping empty chunks. -/
def splitOnChar (c : Char) (s : String) : List String :=
  splitOnCharGo c [] s.data

/-- Split a string on the first occurrence of `c`
(`token.find(c)` + the two `substr` calls); `none` when `c` is absent. -/
def splitFirstChar (c : Char) (s : String) : Option (String × String) :=
  go [] s.data
where
  /-- Walk the characters, accumulating the (reversed) part before `c`. -/
  go (acc : List Char) : List Char → Option (String × String)
    | [] => none
    | x :: rest =>
      if x = c then some (String.mk acc.reverse, String.mk rest)
      else go (x :: acc) rest

/-- Accumulate a run of decimal digits: value so far, number of digits
consumed, rest of the input. -/
def takeDigits (acc count : Nat) : List Char → Nat × Nat × List Char
  | [] => (acc, count, [])
  | c :: rest =>
    if c.isDigit then takeDigits (acc * 10 + (c.toNat - 48)) (count + 1) rest
    else (acc, count, c :: rest)

/-- An exact rational quality value, kept as an unnormalized fraction with a
positive denominator. The C++ code stores qualities in a `double`; every
quality literal the claims exercise is an exact decimal, so the exact
fraction is a faithful model (double rounding is not modelled). -/
structure Quality where
  num : Int
  den : Int

/-- Quality equality (`lhs.quality == rhs.quality`), by cross-multiplication. -/
def qEq (a b : Quality) : Bool := a.num * b.den = b.num * a.den

/-- Quality strict order (`<` on the doubles), by cross-multiplication. -/
def qLt (a b : Quality) : Bool := a.num * b.den < b.num * a.den

/-- Test for `quality > 0.0` (the denominator is positive by construction). -/
def qPos (a : Quality) : Bool := 0 < a.num

/-- Model of `std::stod`, restricted to plain decimal literals (optional sign, digits,
optional fractional part); the longest valid prefix is converted and
trailing characters are ignored, exactly as `stod` does. Exponents,
hexadecimal forms, `inf` and `nan` are not modelled (no quality value in the
claims uses them). `none` models the `std::invalid_argument` throw when no
digits can be consumed. -/
def parseStod (s : String) : Option Quality :=
  let cs := s.data.dropWhile isAsciiSpace
  let signAndRest : Bool × List Char :=
    match cs with
    | '-' :: t => (true, t)
    | '+' :: t => (false, t)
    | _ => (false, cs)
  let (ip, nInt, cs2) := takeDigits 0 0 signAndRest.2
  let fracPart : Nat × Nat :=
    match cs2 with
    | '.' :: t => let (fp, nFrac, _) := takeDigits 0 0 t; (fp, nFrac)
    | _ => (0, 0)
  if nInt = 0 ∧ fracPart.2 = 0 then none
  else
    let den : Int := ((10 : Nat) ^ fracPart.2 : Nat)
    let mag : Int := (ip : Int) * den + (fracPart.1 : Int)
    some { num := if signAndRest.1 then -mag else mag, den := den }

/-- One parsed `Accept-Language` entry (`AcceptLanguageItem` in
`HydraSsrPlugin.cc`). -/
structure AcceptLanguageItem where
  locale : String
  quality : Quality
  order : Nat

/-- The comparator passed to `std::stable_sort`: higher quality first,
original order as the tie-break. -/
def acceptItemBefore (lhs rhs : AcceptLanguageItem) : Bool :=
  if qEq lhs.quality rhs.quality then lhs.order < rhs.order else qLt rhs.quality lhs.quality

/-- Insert into a list sorted by the strict comparator `lt`. -/
def insertSortedBy (lt : α → α → Bool) (a : α) : List α → List α
  | [] => [a]
  | b :: rest => if lt a b then a :: b :: rest else b :: insertSortedBy lt a rest

/-- Insertion sort by the strict comparator `lt`. Because `acceptItemBefore`
tie-breaks on the unique `order` field, the sorted permutation is the one
`std::stable_sort` produces. -/
def sortByComparator (lt : α → α → Bool) (xs : List α) : List α :=
  xs.foldr (insertSortedBy lt) []

/-- The `q=` parameter scan inside `parseAcceptLanguageCandidates`: walk the
`;`-separated parameters, and for each `key=value` with lowercased trimmed
key `q`, replace the quality with `stod(value)`, or `0` when `stod` throws. -/
def scanQualityParams (params : List String) (quality : Quality) : Quality :=
  params.foldl
    (fun q rawParam =>
      let param := trimAsciiWhitespace rawParam
      if param = "" then q
      else
        match splitFirstChar '=' param with
        | none => q
        | some (k, v) =>
          if toLowerCopy (trimAsciiWhitespace k) = "q" then
            match parseStod (trimAsciiWhitespace v) with
            | some d => d
            | none => { num := 0, den := 1 }
          else q)
    quality

/-- Translation of `parseAcceptLanguageCandidates` from `HydraSsrPlugin.cc` (lines 225-295):
split the header on commas, parse each token's language and quality, drop
empty languages, `*`, and non-positive qualities, then stable-sort by
descending quality and return the locales in order. -/
def parseAcceptLanguageCandidates (headerValue : String) : List String :=
  let step := fun (st : List AcceptLanguageItem × Nat) (chunk : String) =>
    let token := trimAsciiWhitespace chunk
    if token = "" then st
    else
      let langAndQuality : String × Quality :=
        match splitFirstChar ';' token with
        | none => (token, { num := 1, den := 1 })
        | some (langPart, paramsPart) =>
          (trimAsciiWhitespace langPart,
           scanQualityParams (splitOnChar ';' paramsPart) { num := 1, den := 1 })
      if langAndQuality.1 ≠ "" ∧ langAndQuality.1 ≠ "*" ∧ qPos langAndQuality.2 then
        (st.1 ++ [⟨langAndQuality.1, langAndQuality.2, st.2⟩], st.2 + 1)
      else st
  let parsed := ((splitOnChar ',' headerValue).foldl step ([], 0)).1
  (sortByComparator acceptItemBefore parsed).map (·.locale)

/-- Translation of `normalizeLocaleTag` from `HydraSsrPlugin.cc` (lines 148-183): trim,
map `_` to `-`, lowercase, keep only alphanumerics and single interior
dashes, and strip trailing dashes. -/
def normalizeLocaleTag (locale : String) : String :=
  let t := trimAsciiWhitespace locale
  if t = "" then ""
  else
    let lowered := (t.data.map (fun c => if c = '_' then '-' else c)).map Char.toLower
    let filtered :=
      lowered.foldl
        (fun (st : List Char × Bool) c =>
          if c.isAlphanum then (c :: st.1, false)
          else if c = '-' ∧ st.2 = false ∧ st.1 ≠ [] then (c :: st.1, true)
          else st)
        ([], false)
    String.mk ((filtered.1.dropWhile (· = '-')).reverse)

/-- Index of the last occurrence of `c` in `s` (`std::string::rfind`). -/
def lastIdxOf (c : Char) (s : String) : Option Nat :=
  match s.data.reverse.findIdx? (· = c) with
  | some j => some (s.data.length - 1 - j)
  | none => none

/-- Recursion worker for `localeFallbackChain`; the fuel argument bounds the
number of suffix-trimming steps (each step strictly shortens the tag, so
`length + 1` fuel always suffices). -/
def fallbackChainGo : Nat → String → List String
  | 0, _ => []
  | fuel + 1, current =>
    if current = "" then []
    else
      current ::
        (match lastIdxOf '-' current with
         | none => []
         | some i => fallbackChainGo fuel (String.mk (current.data.take i)))

/-- Translation of `localeFallbackChain` from `HydraSsrPlugin.cc` (lines 205-217): the tag
followed by each prefix obtained by trimming `-`-separated suffixes. -/
def localeFallbackChain (normalizedLocale : String) : List String :=
  fallbackChainGo (normalizedLocale.data.length + 1) normalizedLocale

/-- Translation of `appendUniqueString` from `HydraSsrPlugin.cc`: append unless empty or
already present. -/
def appendUnique (values : List String) (value : String) : List String :=
  if value = "" ∨ values.contains value then values else values ++ [value]

/-- The candidate-collection loop of `buildRequestContext` (lines 759-769):
normalize every raw candidate, drop the empty ones, and accumulate each
fallback chain without duplicates. -/
def collectLocaleCandidates (raw : List String) : List String :=
  raw.foldl
    (fun acc cand =>
      let n := normalizeLocaleTag cand
      if n = "" then acc
      else (localeFallbackChain n).foldl appendUnique acc)
    []

/-- The i18n configuration slice of `HydraSsrPlugin` used by locale
negotiation. `supported` is the insertion-ordered supported-locale list
(`i18nSupportedLocaleOrder_`); membership in it models membership in the
`i18nSupportedLocales_` set, which always holds the same elements. -/
structure LocaleConfig where
  defaultLocale : String
  supported : List String

/-- The locale-negotiation slice of `HydraSsrPlugin::buildRequestContext`
(lines 738-787). `cookieVal` and `queryVal` are the cookie / query-parameter
lookups (`""` when absent, which is also how the source treats them), and
`acceptLanguage` is the `Accept-Language` header value. -/
def resolveLocale (cfg : LocaleConfig) (cookieVal queryVal acceptLanguage : String) : String :=
  let raw :=
    (if cookieVal ≠ "" then [cookieVal] else []) ++
    (if queryVal ≠ "" then [queryVal] else []) ++
    parseAcceptLanguageCandidates acceptLanguage ++
    [cfg.defaultLocale]
  let candidates := collectLocaleCandidates raw
  let start := if cfg.defaultLocale = "" then "en" else cfg.defaultLocale
  let resolved :=
    match candidates.find? (fun c => cfg.supported.isEmpty || cfg.supported.contains c) with
    | some c => c
    | none => start
  if cfg.supported ≠ [] ∧ ¬cfg.supported.contains resolved then
    cfg.supported.headD resolved
  else resolved

/-- Locale negotiation as the specification words it: candidates in the order
cookie, query parameter, quality-sorted `Accept-Language`, configured
default; each normalized and expanded into its `-`-trimmed fallback chain;
the first candidate found in the configured supported set wins, with the
first supported locale as the final fallback. -/
def specResolveLocale (cfg : LocaleConfig) (cookieVal queryVal acceptLanguage : String) :
    String :=
  let raw :=
    (if cookieVal ≠ "" then [cookieVal] else []) ++
    (if queryVal ≠ "" then [queryVal] else []) ++
    parseAcceptLanguageCandidates acceptLanguage ++
    [cfg.defaultLocale]
  let candidates := collectLocaleCandidates raw
  match candidates.find? (fun c => cfg.supported.contains c) with
  | some c => c
  | none => cfg.supported.headD cfg.defaultLocale

/-- The message of the exception thrown by `V8IsolatePool::acquire` on
`wait_for` expiry (`V8IsolatePool.cc` line 90). -/
def acquireTimeoutMessage : String := "Timed out waiting for available V8 isolate"

/-- The message of the exception thrown by `V8SsrRuntime::render` when the
watchdog terminated execution (`V8SsrRuntime.cc` line 390). -/
def v8TimeoutMessage (timeoutMs : Nat) : String :=
  "SSR render exceeded timeout of " ++ toString timeoutMs ++ "ms"

/-- The sentinel substring the render pipeline scans failure messages for. -/
def renderTimeoutSentinel : String := "SSR render exceeded timeout"

/-- Outcome of `V8IsolatePool::acquire`. `blocked` models `cv_.wait` still
waiting (the `acquireTimeoutMs = 0` branch never throws; it keeps waiting
until a slot is pushed). -/
inductive AcquireOutcome where
  | lease (slot : Nat) (remaining : List Nat)
  | timeout (msg : String)
  | blocked

/-- Translation of `V8IsolatePool::acquire` from
`src/hydrastack/scaffold/engine/src/V8IsolatePool.cc` (lines 81-97).
`ready` is the FIFO `availableRuntimes_` queue (front first) at the moment
the wait completes: a nonempty queue means the wait predicate held, and an
empty queue means the `wait_for` deadline expired with no slot available
(for `acquireTimeoutMs = 0` the `cv_.wait` call simply keeps blocking).
The front slot is popped and leased. The real-time bound of `wait_for` is
the condition-variable primitive's contract and is not modelled. -/
def poolAcquire (acquireTimeoutMs : Nat) (ready : List Nat) : AcquireOutcome :=
  match ready with
  | [] =>
    if acquireTimeoutMs = 0 then .blocked
    else .timeout acquireTimeoutMessage
  | slot :: rest => .lease slot rest

/-- The monotonic counters of `HydraSsrPlugin` that the claims mention.
Latency accumulators and histograms are wall-clock observations and are not
modelled. `codeCounts` models `requestCodeCounts_` (per-HTTP-status
counters). -/
structure Metrics where
  requestsOk : Nat
  requestsFail : Nat
  renderErrors : Nat
  poolTimeouts : Nat
  renderTimeouts : Nat
  runtimeRecycles : Nat
  codeCounts : Int → Nat

/-- The all-zero counter state. -/
def Metrics.zero : Metrics :=
  { requestsOk := 0, requestsFail := 0, renderErrors := 0, poolTimeouts := 0,
    renderTimeouts := 0, runtimeRecycles := 0, codeCounts := fun _ => 0 }

/-- Translation of `HydraSsrPlugin::observeRequestCode`: bump the per-status counter when the
status lies in `[100, kHttpStatusCodeMax = 599]`, else do nothing. -/
def observeRequestCode (statusCode : Int) (counts : Int → Nat) : Int → Nat :=
  if 100 ≤ statusCode ∧ statusCode ≤ 599 then
    fun s => if s = statusCode then counts s + 1 else counts s
  else counts

/-- Translation of `HtmlShell::escapeForScriptTag` from `HtmlShell.cc`. -/
def escapeForScriptTag (value : String) : String :=
  String.join (value.data.map (fun c =>
    if c = '<' then "\\u003c"
    else if c = '>' then "\\u003e"
    else if c = '&' then "\\u0026"
    else String.mk [c]))

/-- Translation of `HtmlShell::errorPage` from `HtmlShell.cc` (lines 170-181). -/
def errorPage (message : String) : String :=
  "<!doctype html>\n<html lang=\"en\">\n  <head><meta charset=\"utf-8\" /><title>HydraStack Error</title></head>\n  <body>\n    <h1>HydraStack SSR Error</h1>\n    <pre>"
    ++ escapeForScriptTag message ++ "</pre>\n  </body>\n</html>\n"

/-- A single-quote character, used inside the CSP header values. -/
def sq : String := String.mk [Char.ofNat 39]

/-- The Content-Security-Policy emitted when the response was wrapped with
the shell and a script nonce exists (`HydraSsrPlugin.cc` lines 1610-1614). -/
def cspWithNonce (nonce : String) : String :=
  "default-src " ++ sq ++ "self" ++ sq ++ "; script-src " ++ sq ++ "self" ++ sq ++ " " ++
  sq ++ "nonce-" ++ nonce ++ sq ++ "; style-src " ++ sq ++ "self" ++ sq ++ " " ++
  sq ++ "unsafe-inline" ++ sq ++ "; connect-src " ++ sq ++ "self" ++ sq ++
  "; img-src " ++ sq ++ "self" ++ sq ++ " data:; object-src " ++ sq ++ "none" ++ sq ++
  "; base-uri " ++ sq ++ "self" ++ sq ++ "; frame-ancestors " ++ sq ++ "none" ++ sq

/-- The minimal Content-Security-Policy (`HydraSsrPlugin.cc` lines 1616-1617). -/
def cspMinimal : String :=
  "default-src " ++ sq ++ "self" ++ sq ++ "; object-src " ++ sq ++ "none" ++ sq ++
  "; base-uri " ++ sq ++ "self" ++ sq ++ "; frame-ancestors " ++ sq ++ "none" ++ sq

/-- The configuration slice of `HydraSsrPlugin` the render pipeline reads.
`scriptNonce` is the per-request nonce: the empty string in dev mode and a
24-character random string otherwise (`renderResult` line 1513); randomness
is abstracted by taking the nonce as an input. -/
structure HydraConfig where
  devModeEnabled : Bool
  wrapFragment : Bool
  scriptNonce : String

/-- The `applySecurityHeaders` lambda inside `HydraSsrPlugin::renderResult`
(lines 1596-1619): `try_emplace` the three fixed security headers, then in
non-dev mode add a Content-Security-Policy unless one is already present —
the nonce variant when the response was wrapped with the shell and a nonce
exists, the minimal variant otherwise. -/
def applySecurityHeaders (cfg : HydraConfig) (wrappedWithShell : Bool)
    (response : SsrRenderResult) : SsrRenderResult :=
  let h1 := headerTryEmplace response.headers "X-Content-Type-Options" "nosniff"
  let h2 := headerTryEmplace h1 "Referrer-Policy" "strict-origin-when-cross-origin"
  let h3 := headerTryEmplace h2 "X-Frame-Options" "DENY"
  if cfg.devModeEnabled || (headerFind h3 "Content-Security-Policy").isSome then
    { response with headers := h3 }
  else if wrappedWithShell && !(cfg.scriptNonce == "") then
    { response with
      headers := headerSet h3 "Content-Security-Policy" (cspWithNonce cfg.scriptNonce) }
  else
    { response with headers := headerSet h3 "Content-Security-Policy" cspMinimal }

/-- Props merging (`renderResult` lines 1495-1507): when the props payload
parses as a JSON object, store the request context under `__hydra_request`
and re-serialize; otherwise pass the string through untouched. (The `pageId`
extraction in the same block only feeds logging and has no effect on the
outputs modelled here.) -/
def effectivePropsJson (parse : String → Option JVal) (propsJson : String)
    (requestContext : JVal) : String :=
  match parse propsJson with
  | some (.obj members) =>
    toCompactJson (.obj (jsonSet members "__hydra_request" requestContext))
  | _ => propsJson

/-- Envelope interpretation of the raw render output (`renderResult` lines
1649-1654): a recognized envelope is used as is, anything else is raw HTML
with status 200; a jsoncpp exception propagates. -/
def envelopeOrRaw (parse : String → Option JVal) (rawOutput : String) :
    Except String SsrRenderResult :=
  (tryParseSsrEnvelope parse rawOutput).map
    (fun parsed =>
      match parsed with
      | some r => r
      | none => { html := rawOutput, status := 200, headers := [] })

/-- The inner catch block (`renderResult` lines 1729-1741): mark the lease
for recycle, count the recycle, and pre-count a render timeout when the
message carries the sentinel, before rethrowing. -/
def recycleBump (m : Metrics) (msg : String) : Metrics :=
  { m with
    runtimeRecycles := m.runtimeRecycles + 1,
    renderTimeouts :=
      m.renderTimeouts + (if containsText msg renderTimeoutSentinel then 1 else 0) }

/-- The outer catch block (`renderResult` lines 1742-1768): count a pool
timeout or a render timeout when the message carries the respective
sentinel, count the failure under status 500, and return a 500 error page
with `X-Request-Id` and the security headers. -/
def failResult (cfg : HydraConfig) (requestId msg : String) (m : Metrics) :
    SsrRenderResult × Metrics :=
  let m1 :=
    { m with
      poolTimeouts := m.poolTimeouts + (if containsText msg acquireTimeoutMessage then 1 else 0),
      renderTimeouts :=
        m.renderTimeouts + (if containsText msg renderTimeoutSentinel then 1 else 0),
      requestsFail := m.requestsFail + 1,
      codeCounts := observeRequestCode 500 m.codeCounts,
      renderErrors := m.renderErrors + 1 }
  (applySecurityHeaders cfg false
    { html := errorPage msg, status := 500, headers := [("X-Request-Id", requestId)] },
   m1)

/-- The success tail of the pipeline (`renderResult` lines 1656-1728): decide
redirect-ness, wrap the fragment with the HTML shell when applicable, count
the request as ok under its status, `try_emplace` `X-Request-Id`, and apply
the security headers. -/
def successResult (cfg : HydraConfig) (wrapShell : String → String) (requestId : String)
    (base : SsrRenderResult) (m : Metrics) : SsrRenderResult × Metrics :=
  let isRedirect :=
    decide (300 ≤ base.status ∧ base.status ≤ 399) && (headerFind base.headers "Location").isSome
  let m1 :=
    { m with
      requestsOk := m.requestsOk + 1,
      codeCounts := observeRequestCode base.status m.codeCounts }
  if !isRedirect && cfg.wrapFragment && !(base.html = "") && !isLikelyFullDocument base.html then
    (applySecurityHeaders cfg true
      { base with
        html := wrapShell base.html,
        headers := headerTryEmplace base.headers "X-Request-Id" requestId },
     m1)
  else
    (applySecurityHeaders cfg false
      { base with headers := headerTryEmplace base.headers "X-Request-Id" requestId },
     m1)

/-- The per-call inputs of `HydraSsrPlugin::renderResult`.
`poolPresent` is whether `isolatePool_` is non-null; `acquireResult` is the
outcome of `isolatePool_->acquire(...)` (`.error` carries the thrown
message); `requestContext` is the `buildRequestContext` output and
`requestId` the resolved request id. -/
structure RenderInputs where
  poolPresent : Bool
  acquireResult : Except String Unit
  routeUrl : String
  propsJson : String
  requestContext : JVal
  requestId : String

/-- Translation of `HydraSsrPlugin::renderResult` (string-props overload, lines 1478-1790),
as a pure function of the call inputs and the counter state.
`parse` models jsoncpp parsing, `wrapShell` models `HtmlShell::wrap` with
the asset arguments fixed, and `runtimeRender` models
`lease->render(routeUrl, effectiveProps, requestContext, timeout)`
(`.error` carries the thrown message, e.g. the watchdog timeout). -/
def renderResultModel (cfg : HydraConfig) (parse : String → Option JVal)
    (wrapShell : String → String)
    (runtimeRender : String → String → String → Except String String)
    (inp : RenderInputs) (m : Metrics) : SsrRenderResult × Metrics :=
  if inp.poolPresent = false then
    ({ html := errorPage "HydraSsrPlugin is not initialized",
       status := 500,
       headers := [("X-Request-Id", inp.requestId),
                   ("X-Content-Type-Options", "nosniff"),
                   ("Referrer-Policy", "strict-origin-when-cross-origin")] },
     m)
  else
    let contextJson := toCompactJson inp.requestContext
    let effProps := effectivePropsJson parse inp.propsJson inp.requestContext
    match inp.acquireResult with
    | .error msg => failResult cfg inp.requestId msg m
    | .ok _ =>
      match runtimeRender inp.routeUrl effProps contextJson with
      | .error msg => failResult cfg inp.requestId msg (recycleBump m msg)
      | .ok rawOutput =>
        match envelopeOrRaw parse rawOutput with
        | .error msg => failResult cfg inp.requestId msg (recycleBump m msg)
        | .ok base => successResult cfg wrapShell inp.requestId base m

/-- The condition under which `tryParseSsrEnvelope` recognizes an envelope:
the first non-whitespace character is `{`, the value parses as a JSON
object, and that object has an `html` member. -/
def envelopeApplicable (parse : String → Option JVal) (out : String) : Prop :=
  firstNonWsChar out = some '{' ∧
  ∃ members, parse out = some (.obj members) ∧ (jsonLookup members "html").isSome

/-- The redirect normalization as the specification words it: a non-empty
trimmed string `redirect` sets `Location` and the status is 302 unless it
already lies in [300, 399]; without such a member, a `Location` header with
a status outside [300, 399] forces 302. -/
def specRedirectNormalize (redirectVal : Option JVal) (html : String) (status : Int)
    (hs : List (String × String)) : SsrRenderResult :=
  match redirectVal with
  | some (.str r) =>
    let target := trimAsciiWhitespace r
    if target ≠ "" then
      { html := html,
        status := if 300 ≤ status ∧ status ≤ 399 then status else 302,
        headers := headerSet hs "Location" target }
    else { html := html, status := status, headers := hs }
  | _ =>
    if (headerFind hs "Location").isSome ∧ ¬(300 ≤ status ∧ status ≤ 399) then
      { html := html, status := 302, headers := hs }
    else { html := html, status := status, headers := hs }

/-- Envelope interpretation as the specification words it (with the
redirect-normalization exception): html from the `html` member when it is a
string (empty otherwise); status from an integer `status` member when it
lies in [100, 599] and 200 otherwise; headers from the string/bool/number
members of `headers`; and the redirect normalization applied last. -/
def specEnvelopeResult (members : List (String × JVal)) : SsrRenderResult :=
  specRedirectNormalize (jsonLookup members "redirect")
    (match jsonLookup members "html" with | some (.str s) => s | _ => "")
    (match jsonLookup members "status" with
     | some (.num n) => if 100 ≤ n ∧ n ≤ 599 then n else 200
     | _ => 200)
    (envelopeHeaders (jsonLookup members "headers"))

/-- A render call whose runtime render was terminated by the watchdog with
`render_timeout_ms = 25` (the runtime throws `v8TimeoutMessage 25`), starting
from the all-zero counters. -/
def c1TimeoutRun : SsrRenderResult × Metrics :=
  renderResultModel ⟨false, true, "NONCE"⟩ (fun _ => none) id
    (fun _ _ _ => .error (v8TimeoutMessage 25))
    ⟨true, .ok (), "/route", "\x7b\x7d", .obj [], "req-1"⟩ Metrics.zero

/-- A render call arriving while `isolatePool_` is null (the pool-absent
500 path of `renderResult`, lines 1481-1489). -/
def c2PoolAbsentRun : SsrRenderResult × Metrics :=
  renderResultModel ⟨false, true, "NONCE"⟩ (fun _ => none) id
    (fun _ _ _ => .ok "")
    ⟨false, .ok (), "/", "", .obj [], "rid"⟩ Metrics.zero

/-! ### Header-map lemmas -/

theorem headerFind_tryEmplace_self (h : List (String × String)) (k v : String) :
    (headerFind (headerTryEmplace h k v) k).isSome := by
  induction h with
  | nil => simp [headerFind, headerTryEmplace]
  | cons p t ih =>
    obtain ⟨k0, v0⟩ := p
    by_cases hk : k0 = k
    · simp [headerFind, headerTryEmplace, hk]
    · simp [headerFind, headerTryEmplace, hk, ih]

theorem headerFind_tryEmplace_preserve (h : List (String × String)) (k v k' : String)
    (hp : (headerFind h k').isSome) :
    (headerFind (headerTryEmplace h k v) k').isSome := by
  induction h with
  | nil => simp [headerFind] at hp
  | cons p t ih =>
    obtain ⟨k0, v0⟩ := p
    by_cases hk : k0 = k
    · simpa [headerTryEmplace, hk] using hp
    · simp only [headerTryEmplace, if_neg hk]
      by_cases hk' : k0 = k'
      · simp [headerFind, hk']
      · simp only [headerFind, if_neg hk'] at hp ⊢
        exact ih hp

theorem headerFind_set_self (h : List (String × String)) (k v : String) :
    headerFind (headerSet h k v) k = some v := by
  induction h with
  | nil => simp [headerFind, headerSet]
  | cons p t ih =>
    obtain ⟨k0, v0⟩ := p
    by_cases hk : k0 = k
    · simp [headerFind, headerSet, hk]
    · simp [headerFind, headerSet, hk, ih]

theorem headerFind_set_preserve (h : List (String × String)) (k v k' : String)
    (hp : (headerFind h k').isSome) :
    (headerFind (headerSet h k v) k').isSome := by
  induction h with
  | nil => simp [headerFind] at hp
  | cons p t ih =>
    obtain ⟨k0, v0⟩ := p
    by_cases hk : k0 = k
    · subst hk
      simp only [headerSet, if_pos rfl]
      by_cases hk' : k0 = k'
      · simp [headerFind, hk']
      · simp only [headerFind, if_neg hk'] at hp ⊢
        exact hp
    · simp only [headerSet, if_neg hk]
      by_cases hk' : k0 = k'
      · simp [headerFind, hk']
      · simp only [headerFind, if_neg hk'] at hp ⊢
        exact ih hp

/-- Every response that passes through `applySecurityHeaders` carries the
three fixed security headers, and in non-dev mode a
`Content-Security-Policy` header as well. -/
theorem applySecurityHeaders_presence (cfg : HydraConfig) (w : Bool)
    (r : SsrRenderResult) :
    (headerFind (applySecurityHeaders cfg w r).headers "X-Content-Type-Options").isSome ∧
    (headerFind (applySecurityHeaders cfg w r).headers "Referrer-Policy").isSome ∧
    (headerFind (applySecurityHeaders cfg w r).headers "X-Frame-Options").isSome ∧
    (cfg.devModeEnabled = false →
      (headerFind (applySecurityHeaders cfg w r).headers "Content-Security-Policy").isSome) := by
  unfold applySecurityHeaders
  dsimp only
  set h3 := headerTryEmplace
      (headerTryEmplace (headerTryEmplace r.headers "X-Content-Type-Options" "nosniff")
        "Referrer-Policy" "strict-origin-when-cross-origin")
      "X-Frame-Options" "DENY" with hh3
  have p1 : (headerFind h3 "X-Content-Type-Options").isSome := by
    rw [hh3]
    apply headerFind_tryEmplace_preserve
    apply headerFind_tryEmplace_preserve
    exact headerFind_tryEmplace_self _ _ _
  have p2 : (headerFind h3 "Referrer-Policy").isSome := by
    rw [hh3]
    apply headerFind_tryEmplace_preserve
    exact headerFind_tryEmplace_self _ _ _
  have p3 : (headerFind h3 "X-Frame-Options").isSome := by
    rw [hh3]; exact headerFind_tryEmplace_self _ _ _
  by_cases hdev : (cfg.devModeEnabled || (headerFind h3 "Content-Security-Policy").isSome) = true
  · refine ⟨by simp [hdev, p1], by simp [hdev, p2], by simp [hdev, p3], ?_⟩
    intro hdevFalse
    simp only [hdev, if_true]
    rcases Bool.or_eq_true_iff.mp hdev with hcase | hcase
    · exact absurd hcase (by simp [hdevFalse])
    · simpa using hcase
  · by_cases hwrap : (w && !(cfg.scriptNonce == "")) = true
    · refine ⟨?_, ?_, ?_, ?_⟩ <;>
        simp [hdev, hwrap, headerFind_set_self,
              headerFind_set_preserve _ _ _ _ p1,
              headerFind_set_preserve _ _ _ _ p2,
              headerFind_set_preserve _ _ _ _ p3]
    · refine ⟨?_, ?_, ?_, ?_⟩ <;>
        simp [hdev, hwrap, headerFind_set_self,
              headerFind_set_preserve _ _ _ _ p1,
              headerFind_set_preserve _ _ _ _ p2,
              headerFind_set_preserve _ _ _ _ p3]

/-- With the pool initialized, every pipeline exit is an
`applySecurityHeaders` application. -/
theorem renderResultModel_securityShape (cfg : HydraConfig)
    (parse : String → Option JVal) (wrapShell : String → String)
    (runtimeRender : String → String → String → Except String String)
    (inp : RenderInputs) (m : Metrics) (hpool : inp.poolPresent = true) :
    ∃ w r, (renderResultModel cfg parse wrapShell runtimeRender inp m).1 =
      applySecurityHeaders cfg w r := by
  unfold renderResultModel
  simp only [hpool]
  rw [if_neg (by simp)]
  cases inp.acquireResult with
  | error msg => exact ⟨false, _, rfl⟩
  | ok u =>
    simp only
    cases runtimeRender inp.routeUrl
        (effectivePropsJson parse inp.propsJson inp.requestContext)
        (toCompactJson inp.requestContext) with
    | error msg => exact ⟨false, _, rfl⟩
    | ok rawOutput =>
      simp only
      cases envelopeOrRaw parse rawOutput with
      | error msg => exact ⟨false, _, rfl⟩
      | ok base =>
        simp only [successResult]
        by_cases hb :
          (!(decide (300 ≤ base.status ∧ base.status ≤ 399) &&
              (headerFind base.headers "Location").isSome) &&
            cfg.wrapFragment && !(base.html = "") && !isLikelyFullDocument base.html) = true
        · exact ⟨true, _, by rw [if_pos hb]⟩
        · exact ⟨false, _, by rw [if_neg hb]⟩

/-- Lemma: `applySecurityHeaders` only touches the header map. -/
theorem applySecurityHeaders_status (cfg : HydraConfig) (w : Bool) (r : SsrRenderResult) :
    (applySecurityHeaders cfg w r).status = r.status := by
  unfold applySecurityHeaders
  dsimp only
  split
  · rfl
  · split <;> rfl

/-- Lemma: `applySecurityHeaders` leaves the html untouched. -/
theorem applySecurityHeaders_html (cfg : HydraConfig) (w : Bool) (r : SsrRenderResult) :
    (applySecurityHeaders cfg w r).html = r.html := by
  unfold applySecurityHeaders
  dsimp only
  split
  · rfl
  · split <;> rfl

/-- The outer catch block counts the failure exactly once under `requests_fail`,
`render_errors` and status code 500, and produces a 500 result. -/
theorem failResult_metrics (cfg : HydraConfig) (rid msg : String) (m : Metrics) :
    (failResult cfg rid msg m).2.requestsFail = m.requestsFail + 1 ∧
    (failResult cfg rid msg m).2.renderErrors = m.renderErrors + 1 ∧
    (failResult cfg rid msg m).2.codeCounts 500 = m.codeCounts 500 + 1 ∧
    (failResult cfg rid msg m).1.status = 500 := by
  refine ⟨rfl, rfl, ?_, ?_⟩
  · show observeRequestCode 500 m.codeCounts 500 = m.codeCounts 500 + 1
    simp [observeRequestCode]
  · show (applySecurityHeaders cfg false _).status = 500
    rw [applySecurityHeaders_status]

/-- Lemma: `recycleBump` leaves the failure counters untouched. -/
theorem recycleBump_fail_counters (m : Metrics) (msg : String) :
    (recycleBump m msg).requestsFail = m.requestsFail ∧
    (recycleBump m msg).renderErrors = m.renderErrors ∧
    (recycleBump m msg).codeCounts = m.codeCounts :=
  ⟨rfl, rfl, rfl⟩

/-- Member assignment makes the member visible under its key. -/
theorem jsonLookup_set_self (members : List (String × JVal)) (key : String) (v : JVal) :
    jsonLookup (jsonSet members key v) key = some v := by
  induction members with
  | nil => simp [jsonLookup, jsonSet]
  | cons p t ih =>
    obtain ⟨k0, v0⟩ := p
    by_cases hk : k0 = key
    · simp [jsonLookup, jsonSet, hk]
    · simp [jsonLookup, jsonSet, hk, ih]

/-- The source's redirect normalization coincides with the specification's
formulation of it (the two only differ in the polarity of the 3xx test). -/
theorem applyRedirectRule_eq_spec (red : Option JVal) (html : String) (S : Int)
    (hs : List (String × String)) :
    applyRedirectRule red html S hs = specRedirectNormalize red html S hs := by
  have hstatus :
      (if S < 300 ∨ S > 399 then (302 : Int) else S) =
        (if 300 ≤ S ∧ S ≤ 399 then S else 302) := by
    split_ifs <;> omega
  have helse :
      (if (headerFind hs "Location").isSome ∧ (S < 300 ∨ S > 399) then
        ({ html := html, status := 302, headers := hs } : SsrRenderResult)
      else { html := html, status := S, headers := hs }) =
        (if (headerFind hs "Location").isSome ∧ ¬(300 ≤ S ∧ S ≤ 399) then
          { html := html, status := 302, headers := hs }
        else { html := html, status := S, headers := hs }) := by
    by_cases hloc : (headerFind hs "Location").isSome
    · by_cases hr : 300 ≤ S ∧ S ≤ 399
      · have h1 : ¬((headerFind hs "Location").isSome ∧ (S < 300 ∨ S > 399)) :=
          fun h => by omega
        have h2 : ¬((headerFind hs "Location").isSome ∧ ¬(300 ≤ S ∧ S ≤ 399)) :=
          fun h => h.2 hr
        rw [if_neg h1, if_neg h2]
      · rw [if_pos ⟨hloc, by omega⟩, if_pos ⟨hloc, hr⟩]
    · rw [if_neg (fun h => hloc h.1), if_neg (fun h => hloc h.1)]
  cases red with
  | none => exact helse
  | some v =>
    cases v with
    | str r =>
      unfold applyRedirectRule specRedirectNormalize
      dsimp only
      by_cases htr : trimAsciiWhitespace r ≠ ""
      · rw [if_pos htr, if_pos htr, hstatus]
      · rw [if_neg htr, if_neg htr]
    | null => exact helse
    | bool b => exact helse
    | num n => exact helse
    | arr items => exact helse
    | obj ms => exact helse

/-! ### Locale-candidate lemmas -/

theorem mem_appendUnique_self (acc : List String) (x : String) (hx : x ≠ "") :
    x ∈ appendUnique acc x := by
  unfold appendUnique
  split
  next h =>
    rcases h with h1 | h2
    · exact absurd h1 hx
    · simpa using h2
  next h => simp

theorem mem_appendUnique_mono (acc : List String) (x y : String) (hx : x ∈ acc) :
    x ∈ appendUnique acc y := by
  unfold appendUnique
  split
  · exact hx
  · exact List.mem_append_left _ hx

theorem mem_foldl_appendUnique_mono (l : List String) (acc : List String) (x : String)
    (hx : x ∈ acc) : x ∈ l.foldl appendUnique acc := by
  induction l generalizing acc with
  | nil => exact hx
  | cons y t ih => exact ih _ (mem_appendUnique_mono _ _ _ hx)

/-- A nonempty normalized tag heads its own fallback chain. -/
theorem localeFallbackChain_cons (n : String) (hn : n ≠ "") :
    ∃ t, localeFallbackChain n = n :: t := by
  refine ⟨?_, ?_⟩
  · exact
      match lastIdxOf '-' n with
      | none => []
      | some i => fallbackChainGo n.data.length (String.mk (n.data.take i))
  · simp [localeFallbackChain, fallbackChainGo, hn]

/-- The default locale, when already normalized and nonempty, always ends up
among the collected candidates (it is the last raw candidate). -/
theorem default_mem_collect (raw : List String) (d : String) (hd : d ≠ "")
    (hnorm : normalizeLocaleTag d = d) :
    d ∈ collectLocaleCandidates (raw ++ [d]) := by
  unfold collectLocaleCandidates
  rw [List.foldl_append]
  obtain ⟨t, ht⟩ := localeFallbackChain_cons d hd
  simp only [List.foldl_cons, List.foldl_nil, hnorm, hd, if_neg hd, ht]
  exact mem_foldl_appendUnique_mono _ _ _ (mem_appendUnique_self _ _ hd)

/-! ### Claim C1 — render-timeout failure protocol -/

/-- C1: on a watchdog-terminated render the caller does receive a 500 whose
body contains the timeout message, and `recycles_total` increments by 1 —
but `render_timeouts_total` increments by 2, not by exactly 1: the inner
catch (`HydraSsrPlugin.cc` lines 1733-1735) counts the sentinel and the
outer catch (lines 1747-1749) counts the same message again after the
rethrow. -/
theorem c1_render_timeout_double_count :
    c1TimeoutRun.1.status = 500 ∧
    containsText c1TimeoutRun.1.html (v8TimeoutMessage 25) = true ∧
    c1TimeoutRun.2.runtimeRecycles = 1 ∧
    c1TimeoutRun.2.renderTimeouts = 2 ∧
    c1TimeoutRun.2.renderTimeouts ≠ 1 := by
  refine ⟨?_, ?_, ?_, ?_, ?_⟩ <;> decide

/-! ### Claim C2 — security headers on every response -/

/-- C2 counterexample: the pool-absent 500 result carries neither
`X-Frame-Options` nor (although not in dev mode) a
`Content-Security-Policy`, contradicting the claim that every
`SsrRenderResult` carries all three fixed security headers. -/
theorem c2_pool_absent_missing_header :
    headerFind c2PoolAbsentRun.1.headers "X-Frame-Options" = none ∧
    headerFind c2PoolAbsentRun.1.headers "Content-Security-Policy" = none ∧
    c2PoolAbsentRun.1.status = 500 := by
  refine ⟨?_, ?_, ?_⟩ <;> decide

/-- C2 (amended): with the pool initialized, every result of `renderResult` —
success, failure, wrapped or not — carries `X-Content-Type-Options`,
`Referrer-Policy` and `X-Frame-Options`, and when not in dev mode a
`Content-Security-Policy` header is present (the envelope-supplied one when
there was one). Only the pool-absent 500 path lacks `X-Frame-Options` and
the CSP. -/
theorem c2_security_headers_present (cfg : HydraConfig) (parse : String → Option JVal)
    (wrapShell : String → String)
    (runtimeRender : String → String → String → Except String String)
    (inp : RenderInputs) (m : Metrics) (hpool : inp.poolPresent = true) :
    (headerFind (renderResultModel cfg parse wrapShell runtimeRender inp m).1.headers
        "X-Content-Type-Options").isSome ∧
    (headerFind (renderResultModel cfg parse wrapShell runtimeRender inp m).1.headers
        "Referrer-Policy").isSome ∧
    (headerFind (renderResultModel cfg parse wrapShell runtimeRender inp m).1.headers
        "X-Frame-Options").isSome ∧
    (cfg.devModeEnabled = false →
      (headerFind (renderResultModel cfg parse wrapShell runtimeRender inp m).1.headers
        "Content-Security-Policy").isSome) := by
  obtain ⟨w, r, hshape⟩ :=
    renderResultModel_securityShape cfg parse wrapShell runtimeRender inp m hpool
  rw [hshape]
  exact applySecurityHeaders_presence cfg w r

/-- C2 witness: the amended theorem applied to a concrete production-mode
call whose bundle returned plain HTML. -/
theorem c2_security_headers_witness :
    (headerFind (renderResultModel ⟨false, true, "N"⟩ (fun _ => none) id
        (fun _ _ _ => .ok "hi") ⟨true, .ok (), "/", "", .obj [], "rid"⟩
        Metrics.zero).1.headers "X-Frame-Options").isSome ∧
    (headerFind (renderResultModel ⟨false, true, "N"⟩ (fun _ => none) id
        (fun _ _ _ => .ok "hi") ⟨true, .ok (), "/", "", .obj [], "rid"⟩
        Metrics.zero).1.headers "Content-Security-Policy").isSome := by
  have h := c2_security_headers_present ⟨false, true, "N"⟩ (fun _ => none) id
    (fun _ _ _ => .ok "hi") ⟨true, .ok (), "/", "", .obj [], "rid"⟩ Metrics.zero rfl
  exact ⟨h.2.2.1, h.2.2.2 rfl⟩

/-! ### Claim C5 — pool acquire semantics -/

/-- C5: `acquire(0)` never fails with a timeout (an empty queue leaves it
blocked on the condition variable); `acquire(waitMs)` with `waitMs > 0` and
no slot available by the deadline fails with the acquire-timeout error
`Timed out waiting for available V8 isolate`; and whenever a slot is
available the lease takes the slot at the front of the FIFO ready queue. -/
theorem c5_pool_acquire :
    (∀ (ready : List Nat) (msg : String), poolAcquire 0 ready ≠ .timeout msg) ∧
    (∀ waitMs : Nat, waitMs ≠ 0 → poolAcquire waitMs [] = .timeout acquireTimeoutMessage) ∧
    (∀ (waitMs slot : Nat) (rest : List Nat),
      poolAcquire waitMs (slot :: rest) = .lease slot rest) := by
  refine ⟨?_, ?_, ?_⟩
  · intro ready msg h
    cases ready <;> simp [poolAcquire] at h
  · intro waitMs hw
    simp [poolAcquire, hw]
  · intro waitMs slot rest
    rfl

/-- C5 witness: a saturated pool with `acquire_timeout_ms = 10` produces the
acquire-timeout error. -/
theorem c5_pool_acquire_witness :
    poolAcquire 10 [] = .timeout acquireTimeoutMessage :=
  c5_pool_acquire.2.1 10 (by decide)

/-! ### Claim C8 — failure metrics -/

/-- C8: every failed render call — a pool-acquire throw (including the
acquire timeout), a runtime render throw (timeout, JS exception, missing
entry), or a jsoncpp throw while interpreting the return — increments both
`requests_fail` and `render_errors` by exactly 1, records the request under
status code 500, and yields a 500 result. In particular `render_errors`
counts acquire timeouts as well. -/
theorem c8_failed_render_metrics (cfg : HydraConfig) (parse : String → Option JVal)
    (wrapShell : String → String)
    (runtimeRender : String → String → String → Except String String)
    (inp : RenderInputs) (m : Metrics) (msg : String)
    (hpool : inp.poolPresent = true)
    (hfail :
      inp.acquireResult = .error msg ∨
      (inp.acquireResult = .ok () ∧
        runtimeRender inp.routeUrl
          (effectivePropsJson parse inp.propsJson inp.requestContext)
          (toCompactJson inp.requestContext) = .error msg) ∨
      (∃ rawOutput,
        inp.acquireResult = .ok () ∧
        runtimeRender inp.routeUrl
          (effectivePropsJson parse inp.propsJson inp.requestContext)
          (toCompactJson inp.requestContext) = .ok rawOutput ∧
        envelopeOrRaw parse rawOutput = .error msg)) :
    (renderResultModel cfg parse wrapShell runtimeRender inp m).2.requestsFail =
      m.requestsFail + 1 ∧
    (renderResultModel cfg parse wrapShell runtimeRender inp m).2.renderErrors =
      m.renderErrors + 1 ∧
    (renderResultModel cfg parse wrapShell runtimeRender inp m).2.codeCounts 500 =
      m.codeCounts 500 + 1 ∧
    (renderResultModel cfg parse wrapShell runtimeRender inp m).1.status = 500 := by
  unfold renderResultModel
  rw [hpool, if_neg (by simp)]
  rcases hfail with h | ⟨hok, hrt⟩ | ⟨rawOutput, hok, hrt, henv⟩
  · rw [h]
    exact failResult_metrics cfg inp.requestId msg m
  · rw [hok]
    dsimp only
    rw [hrt]
    exact failResult_metrics cfg inp.requestId msg (recycleBump m msg)
  · rw [hok]
    dsimp only
    rw [hrt]
    dsimp only
    rw [henv]
    exact failResult_metrics cfg inp.requestId msg (recycleBump m msg)

/-- C8 witness: an acquire-timeout failure increments `render_errors`. -/
theorem c8_failed_render_metrics_witness :
    (renderResultModel ⟨false, true, "N"⟩ (fun _ => none) id (fun _ _ _ => .ok "")
        ⟨true, .error acquireTimeoutMessage, "/", "", .obj [], "rid"⟩
        Metrics.zero).2.renderErrors = Metrics.zero.renderErrors + 1 :=
  (c8_failed_render_metrics ⟨false, true, "N"⟩ (fun _ => none) id (fun _ _ _ => .ok "")
    ⟨true, .error acquireTimeoutMessage, "/", "", .obj [], "rid"⟩
    Metrics.zero acquireTimeoutMessage rfl (Or.inl rfl)).2.1

/-! ### Claim C10 — empty html is never wrapped -/

/-- C10: whenever the interpreted render result has an empty html string
(for example an envelope whose `html` member is `""` or not a string), the
HTML shell is not applied — whatever `wrap_fragment` is and whatever the
shell would produce — and the result's html stays empty. -/
theorem c10_empty_html_unwrapped (cfg : HydraConfig) (parse : String → Option JVal)
    (wrapShell : String → String)
    (runtimeRender : String → String → String → Except String String)
    (inp : RenderInputs) (m : Metrics) (rawOutput : String) (base : SsrRenderResult)
    (hpool : inp.poolPresent = true)
    (hacq : inp.acquireResult = .ok ())
    (hrt : runtimeRender inp.routeUrl
        (effectivePropsJson parse inp.propsJson inp.requestContext)
        (toCompactJson inp.requestContext) = .ok rawOutput)
    (henv : envelopeOrRaw parse rawOutput = .ok base)
    (hhtml : base.html = "") :
    (renderResultModel cfg parse wrapShell runtimeRender inp m).1.html = "" := by
  unfold renderResultModel
  rw [hpool, if_neg (by simp), hacq]
  dsimp only
  rw [hrt]
  dsimp only
  rw [henv]
  simp [successResult, hhtml, applySecurityHeaders_html]

/-- C10 witness: an envelope with `"html": ""` leaves the final html empty
even with `wrap_fragment = true` and a shell that would produce output. -/
theorem c10_empty_html_unwrapped_witness :
    (renderResultModel ⟨false, true, "N"⟩
        (fun s => if s = "\x7b\"html\":\"\"\x7d" then some (.obj [("html", .str "")]) else none)
        (fun h => "WRAPPED:" ++ h)
        (fun _ _ _ => .ok "\x7b\"html\":\"\"\x7d")
        ⟨true, .ok (), "/", "x", .obj [], "rid"⟩ Metrics.zero).1.html = "" :=
  c10_empty_html_unwrapped ⟨false, true, "N"⟩
    (fun s => if s = "\x7b\"html\":\"\"\x7d" then some (.obj [("html", .str "")]) else none)
    (fun h => "WRAPPED:" ++ h)
    (fun _ _ _ => .ok "\x7b\"html\":\"\"\x7d")
    ⟨true, .ok (), "/", "x", .obj [], "rid"⟩ Metrics.zero
    "\x7b\"html\":\"\"\x7d" ⟨"", 200, []⟩ rfl rfl rfl rfl rfl

/-! ### Claim C7 — props merging -/

/-- C7: when the props payload parses as a JSON object, the JSON handed to
the bundle is that object with the request context stored under the
top-level key `__hydra_request` (which then maps to exactly the request
context); any other props string is delivered byte-for-byte unchanged. -/
theorem c7_props_merging :
    (∀ (parse : String → Option JVal) (props : String) (ctx : JVal)
        (members : List (String × JVal)),
      parse props = some (.obj members) →
      effectivePropsJson parse props ctx =
        toCompactJson (.obj (jsonSet members "__hydra_request" ctx)) ∧
      jsonLookup (jsonSet members "__hydra_request" ctx) "__hydra_request" = some ctx) ∧
    (∀ (parse : String → Option JVal) (props : String) (ctx : JVal),
      (∀ members, parse props ≠ some (.obj members)) →
      effectivePropsJson parse props ctx = props) := by
  constructor
  · intro parse props ctx members h
    constructor
    · unfold effectivePropsJson
      rw [h]
    · exact jsonLookup_set_self members "__hydra_request" ctx
  · intro parse props ctx h
    unfold effectivePropsJson
    cases hp : parse props with
    | none => rfl
    | some v =>
      cases v with
      | obj members => exact absurd hp (h members)
      | null => rfl
      | bool b => rfl
      | num n => rfl
      | str s => rfl
      | arr items => rfl

/-- C7 witness: merging at a concrete one-member props object. -/
theorem c7_props_merging_witness :
    effectivePropsJson (fun _ => some (.obj [("a", .num 1)])) "\x7b\"a\":1\x7d" (.str "ctx") =
      toCompactJson (.obj (jsonSet [("a", .num 1)] "__hydra_request" (.str "ctx"))) ∧
    jsonLookup (jsonSet [("a", .num 1)] "__hydra_request" (.str "ctx")) "__hydra_request" =
      some (.str "ctx") :=
  c7_props_merging.1 (fun _ => some (.obj [("a", .num 1)])) "\x7b\"a\":1\x7d" (.str "ctx")
    [("a", .num 1)] rfl

/-! ### Claim C4 — redirect normalization and shell skipping -/

/-- C4: an envelope with a non-empty (trimmed) string `redirect` member gets
`Location` set to the trimmed target and its status forced to 302 unless
the status already lies in [300, 399]; and any interpreted result whose
status lies in [300, 399] with a `Location` header present is returned with
its html untouched by the shell, whatever the shell function is. -/
theorem c4_redirect_normalization :
    (∀ (parse : String → Option JVal) (out : String) (members : List (String × JVal))
        (rs : String) (st : Int),
      firstNonWsChar out = some '{' →
      parse out = some (.obj members) →
      (jsonLookup members "html").isSome →
      jsonLookup members "redirect" = some (.str rs) →
      trimAsciiWhitespace rs ≠ "" →
      jvalAsInt ((jsonLookup members "status").getD (.num 200)) = some st →
      ∃ r, tryParseSsrEnvelope parse out = .ok (some r) ∧
        headerFind r.headers "Location" = some (trimAsciiWhitespace rs) ∧
        r.status =
          (if 300 ≤ (if 100 ≤ st ∧ st ≤ 599 then st else 200) ∧
              (if 100 ≤ st ∧ st ≤ 599 then st else (200 : Int)) ≤ 399 then
            (if 100 ≤ st ∧ st ≤ 599 then st else 200)
          else 302)) ∧
    (∀ (cfg : HydraConfig) (parse : String → Option JVal) (wrapShell : String → String)
        (runtimeRender : String → String → String → Except String String)
        (inp : RenderInputs) (m : Metrics) (rawOutput : String) (base : SsrRenderResult),
      inp.poolPresent = true →
      inp.acquireResult = .ok () →
      runtimeRender inp.routeUrl
        (effectivePropsJson parse inp.propsJson inp.requestContext)
        (toCompactJson inp.requestContext) = .ok rawOutput →
      envelopeOrRaw parse rawOutput = .ok base →
      300 ≤ base.status → base.status ≤ 399 →
      (headerFind base.headers "Location").isSome →
      (renderResultModel cfg parse wrapShell runtimeRender inp m).1.html = base.html) := by
  constructor
  · intro parse out members rs st hnw hp hh hred ht hst
    unfold tryParseSsrEnvelope
    rw [hnw]
    dsimp only
    rw [if_neg (by simp), hp]
    dsimp only
    obtain ⟨hv, hhv⟩ := Option.isSome_iff_exists.mp hh
    rw [hhv]
    dsimp only
    rw [hst]
    dsimp only
    rw [hred]
    unfold applyRedirectRule
    dsimp only
    rw [if_pos ht]
    refine ⟨_, rfl, headerFind_set_self _ _ _, ?_⟩
    dsimp only
    split_ifs <;> omega
  · intro cfg parse wrapShell runtimeRender inp m rawOutput base hpool hacq hrt henv
      hlo hhi hloc
    unfold renderResultModel
    rw [hpool, if_neg (by simp), hacq]
    dsimp only
    rw [hrt]
    dsimp only
    rw [henv]
    obtain ⟨loc, hlocv⟩ := Option.isSome_iff_exists.mp hloc
    simp [successResult, hlo, hhi, hlocv, applySecurityHeaders_html]

/-- C4 witness: the redirect envelope `{"html":"","redirect":"/login"}`
(status absent, so 200 before normalization) yields `Location: /login` and
status 302. -/
theorem c4_redirect_normalization_witness :
    ∃ r, tryParseSsrEnvelope
        (fun s => if s = "\x7b\"html\":\"\",\"redirect\":\"/login\"\x7d" then
          some (.obj [("html", .str ""), ("redirect", .str "/login")]) else none)
        "\x7b\"html\":\"\",\"redirect\":\"/login\"\x7d" = .ok (some r) ∧
      headerFind r.headers "Location" = some (trimAsciiWhitespace "/login") ∧
      r.status =
        (if 300 ≤ (if 100 ≤ (200 : Int) ∧ (200 : Int) ≤ 599 then (200 : Int) else 200) ∧
            (if 100 ≤ (200 : Int) ∧ (200 : Int) ≤ 599 then (200 : Int) else (200 : Int)) ≤ 399 then
          (if 100 ≤ (200 : Int) ∧ (200 : Int) ≤ 599 then (200 : Int) else 200)
        else 302) :=
  c4_redirect_normalization.1
    (fun s => if s = "\x7b\"html\":\"\",\"redirect\":\"/login\"\x7d" then
      some (.obj [("html", .str ""), ("redirect", .str "/login")]) else none)
    "\x7b\"html\":\"\",\"redirect\":\"/login\"\x7d"
    [("html", .str ""), ("redirect", .str "/login")] "/login" 200
    rfl rfl (by decide) rfl (by decide) rfl

/-! ### Claim C3 — envelope parsing -/

/-- C3 counterexample: for the envelope `{"html":"hi","redirect":"/login"}`
the `status` member is absent, so the claim's rule says status 200
(default); the pipeline instead forces 302 because redirect normalization
runs after the status extraction. -/
theorem c3_redirect_overrides_default_status :
    envelopeOrRaw
        (fun s => if s = "\x7b\"html\":\"hi\",\"redirect\":\"/login\"\x7d" then
          some (.obj [("html", .str "hi"), ("redirect", .str "/login")]) else none)
        "\x7b\"html\":\"hi\",\"redirect\":\"/login\"\x7d" =
      .ok { html := "hi", status := 302, headers := [("Location", "/login")] } ∧
    (302 : Int) ≠ 200 :=
  ⟨rfl, by decide⟩

/-- C3 (amended): a return value whose first non-whitespace character is `{`
and which parses as a JSON object with an `html` member (and a status
member the jsoncpp `asInt` coercion accepts) is interpreted exactly as the
specification's extraction rules plus the redirect normalization describe
(`specEnvelopeResult`); every other return value — malformed JSON starting
with `{` included — is treated as raw HTML with status 200. -/
theorem c3_envelope_interpretation :
    (∀ (parse : String → Option JVal) (out : String) (members : List (String × JVal)),
      firstNonWsChar out = some '{' →
      parse out = some (.obj members) →
      (jsonLookup members "html").isSome →
      (jvalAsInt ((jsonLookup members "status").getD (.num 200))).isSome →
      envelopeOrRaw parse out = .ok (specEnvelopeResult members)) ∧
    (∀ (parse : String → Option JVal) (out : String),
      ¬envelopeApplicable parse out →
      envelopeOrRaw parse out = .ok { html := out, status := 200, headers := [] }) := by
  constructor
  · intro parse out members hnw hp hh hst
    obtain ⟨st, hstv⟩ := Option.isSome_iff_exists.mp hst
    obtain ⟨hv, hhv⟩ := Option.isSome_iff_exists.mp hh
    have hbase :
        (if 100 ≤ st ∧ st ≤ 599 then st else (200 : Int)) =
          (match jsonLookup members "status" with
           | some (.num n) => if 100 ≤ n ∧ n ≤ 599 then n else 200
           | _ => (200 : Int)) := by
      cases hlook : jsonLookup members "status" with
      | none =>
        rw [hlook] at hstv
        simp only [Option.getD, jvalAsInt] at hstv
        obtain rfl : (200 : Int) = st := Option.some.injEq _ _ ▸ hstv
        norm_num
      | some v =>
        rw [hlook] at hstv
        cases v with
        | num n =>
          simp only [Option.getD, jvalAsInt] at hstv
          obtain rfl : n = st := Option.some.injEq _ _ ▸ hstv
          rfl
        | bool b =>
          simp only [Option.getD, jvalAsInt] at hstv
          have : (if b then (1 : Int) else 0) = st := Option.some.injEq _ _ ▸ hstv
          subst this
          cases b <;> norm_num
        | null =>
          simp only [Option.getD, jvalAsInt] at hstv
          obtain rfl : (0 : Int) = st := Option.some.injEq _ _ ▸ hstv
          norm_num
        | str s => simp [Option.getD, jvalAsInt] at hstv
        | arr items => simp [Option.getD, jvalAsInt] at hstv
        | obj ms => simp [Option.getD, jvalAsInt] at hstv
    unfold envelopeOrRaw tryParseSsrEnvelope
    rw [hnw]
    dsimp only
    rw [if_neg (by simp), hp]
    dsimp only
    rw [hhv]
    dsimp only
    rw [hstv]
    dsimp only [Except.map]
    unfold specEnvelopeResult
    rw [hhv, ← hbase]
    cases hv with
    | null => exact congrArg Except.ok (applyRedirectRule_eq_spec _ _ _ _)
    | bool b => exact congrArg Except.ok (applyRedirectRule_eq_spec _ _ _ _)
    | num n => exact congrArg Except.ok (applyRedirectRule_eq_spec _ _ _ _)
    | str s => exact congrArg Except.ok (applyRedirectRule_eq_spec _ _ _ _)
    | arr items => exact congrArg Except.ok (applyRedirectRule_eq_spec _ _ _ _)
    | obj ms => exact congrArg Except.ok (applyRedirectRule_eq_spec _ _ _ _)
  · intro parse out h
    unfold envelopeOrRaw tryParseSsrEnvelope
    cases hnw : firstNonWsChar out with
    | none => rfl
    | some c =>
      dsimp only
      by_cases hc : c = '{'
      · subst hc
        rw [if_neg (by simp)]
        cases hpv : parse out with
        | none => rfl
        | some v =>
          cases v with
          | obj members =>
            dsimp only
            cases hhl : jsonLookup members "html" with
            | none => rfl
            | some hv =>
              exact absurd ⟨hnw, members, hpv, by simp [hhl]⟩ h
          | null => rfl
          | bool b => rfl
          | num n => rfl
          | str s => rfl
          | arr items => rfl
      · rw [if_pos hc]
        rfl

/-- C3 witness: the amended theorem at the envelope
`{"html":"x","status":204}` (no redirect, no Location). -/
theorem c3_envelope_interpretation_witness :
    envelopeOrRaw
        (fun s => if s = "\x7b\"html\":\"x\",\"status\":204\x7d" then
          some (.obj [("html", .str "x"), ("status", .num 204)]) else none)
        "\x7b\"html\":\"x\",\"status\":204\x7d" =
      .ok (specEnvelopeResult [("html", .str "x"), ("status", .num 204)]) :=
  c3_envelope_interpretation.1
    (fun s => if s = "\x7b\"html\":\"x\",\"status\":204\x7d" then
      some (.obj [("html", .str "x"), ("status", .num 204)]) else none)
    "\x7b\"html\":\"x\",\"status\":204\x7d"
    [("html", .str "x"), ("status", .num 204)]
    rfl rfl (by decide) (by decide)

/-! ### Claim C9 — Location-only 302 normalization -/

/-- C9 counterexample: the envelope
`{"html":"","redirect":" ","headers":{"Location":"/x"}}` carries a
`Location` header and a non-3xx status (200), yet the status is not forced
to 302: the `redirect` member is a string, so the source takes the
redirect branch, whose trimmed-empty target performs no normalization and
skips the `Location`-only fallback entirely. -/
theorem c9_blank_redirect_skips_normalization :
    tryParseSsrEnvelope
        (fun s => if s = "\x7b\"html\":\"\",\"redirect\":\" \",\"headers\":\x7b\"Location\":\"/x\"\x7d\x7d" then
          some (.obj [("html", .str ""), ("redirect", .str " "),
                      ("headers", .obj [("Location", .str "/x")])]) else none)
        "\x7b\"html\":\"\",\"redirect\":\" \",\"headers\":\x7b\"Location\":\"/x\"\x7d\x7d" =
      .ok (some { html := "", status := 200, headers := [("Location", "/x")] }) ∧
    (200 : Int) ≠ 302 :=
  ⟨rfl, by decide⟩

/-- C9 (amended): an envelope whose `redirect` member is absent or not a
string, and whose extracted headers carry `Location` while the extracted
status lies outside [300, 399], has its status forced to 302 — the
`redirect` member is not required. (When `redirect` is a string whose
trimmed value is empty, the normalization is skipped and the status keeps
its envelope value.) -/
theorem c9_location_only_forces_302 (parse : String → Option JVal) (out : String)
    (members : List (String × JVal)) (st : Int)
    (hnw : firstNonWsChar out = some '{')
    (hp : parse out = some (.obj members))
    (hh : (jsonLookup members "html").isSome)
    (hred : ∀ s, jsonLookup members "redirect" ≠ some (.str s))
    (hst : jvalAsInt ((jsonLookup members "status").getD (.num 200)) = some st)
    (hloc : (headerFind (envelopeHeaders (jsonLookup members "headers")) "Location").isSome)
    (hout : (if 100 ≤ st ∧ st ≤ 599 then st else (200 : Int)) < 300 ∨
            (if 100 ≤ st ∧ st ≤ 599 then st else (200 : Int)) > 399) :
    ∃ r, tryParseSsrEnvelope parse out = .ok (some r) ∧ r.status = 302 := by
  unfold tryParseSsrEnvelope
  rw [hnw]
  dsimp only
  rw [if_neg (by simp), hp]
  dsimp only
  obtain ⟨hv, hhv⟩ := Option.isSome_iff_exists.mp hh
  rw [hhv]
  dsimp only
  rw [hst]
  dsimp only
  cases hrv : jsonLookup members "redirect" with
  | none =>
    unfold applyRedirectRule
    dsimp only
    rw [if_pos ⟨hloc, hout⟩]
    exact ⟨_, rfl, rfl⟩
  | some v =>
    cases v with
    | str s => exact absurd hrv (hred s)
    | null =>
      unfold applyRedirectRule
      dsimp only
      rw [if_pos ⟨hloc, hout⟩]
      exact ⟨_, rfl, rfl⟩
    | bool b =>
      unfold applyRedirectRule
      dsimp only
      rw [if_pos ⟨hloc, hout⟩]
      exact ⟨_, rfl, rfl⟩
    | num n =>
      unfold applyRedirectRule
      dsimp only
      rw [if_pos ⟨hloc, hout⟩]
      exact ⟨_, rfl, rfl⟩
    | arr items =>
      unfold applyRedirectRule
      dsimp only
      rw [if_pos ⟨hloc, hout⟩]
      exact ⟨_, rfl, rfl⟩
    | obj ms =>
      unfold applyRedirectRule
      dsimp only
      rw [if_pos ⟨hloc, hout⟩]
      exact ⟨_, rfl, rfl⟩

/-- C9 witness: `{"html":"","headers":{"Location":"/x"}}` — no `redirect`
member at all — resolves to status 302. -/
theorem c9_location_only_forces_302_witness :
    ∃ r, tryParseSsrEnvelope
        (fun s => if s = "\x7b\"html\":\"\",\"headers\":\x7b\"Location\":\"/x\"\x7d\x7d" then
          some (.obj [("html", .str ""),
                      ("headers", .obj [("Location", .str "/x")])]) else none)
        "\x7b\"html\":\"\",\"headers\":\x7b\"Location\":\"/x\"\x7d\x7d" = .ok (some r) ∧
      r.status = 302 :=
  c9_location_only_forces_302
    (fun s => if s = "\x7b\"html\":\"\",\"headers\":\x7b\"Location\":\"/x\"\x7d\x7d" then
      some (.obj [("html", .str ""),
                  ("headers", .obj [("Location", .str "/x")])]) else none)
    "\x7b\"html\":\"\",\"headers\":\x7b\"Location\":\"/x\"\x7d\x7d"
    [("html", .str ""), ("headers", .obj [("Location", .str "/x")])] 200
    rfl rfl (by decide) (by intro s h; simp [jsonLookup] at h) rfl (by decide) (by decide)

/-! ### Claim C6 — locale negotiation -/

/-- C6: under the initialization invariants (`supportedLocales` nonempty and
the default locale a nonempty, already-normalized tag — `initAndStart`
guarantees all three), the source's locale negotiation coincides with the
specification's description: candidates in the order cookie, query,
quality-sorted `Accept-Language`, default; normalized and expanded into
fallback chains; first candidate in the supported set wins, first supported
locale as final fallback. On the concrete instance with supported
`{en, fr-ca}` and `Accept-Language: fr-CA,fr;q=0.9,en;q=0.8` the resolved
locale is `fr-ca`. -/
theorem c6_locale_negotiation :
    (∀ (cfg : LocaleConfig) (cookieVal queryVal acceptLanguage : String),
      cfg.supported ≠ [] →
      cfg.defaultLocale ≠ "" →
      normalizeLocaleTag cfg.defaultLocale = cfg.defaultLocale →
      resolveLocale cfg cookieVal queryVal acceptLanguage =
        specResolveLocale cfg cookieVal queryVal acceptLanguage) ∧
    resolveLocale ⟨"en", ["en", "fr-ca"]⟩ "" "" "fr-CA,fr;q=0.9,en;q=0.8" = "fr-ca" := by
  constructor
  · intro cfg cv qv al hsup hdne hnorm
    unfold resolveLocale specResolveLocale
    dsimp only
    have hempty : cfg.supported.isEmpty = false := by
      cases hs : cfg.supported with
      | nil => exact absurd hs hsup
      | cons a t => rfl
    have hpredEq : (fun c => cfg.supported.isEmpty || cfg.supported.contains c) =
        (fun c => cfg.supported.contains c) := by
      funext c
      rw [hempty]
      simp
    rw [hpredEq]
    cases hfind :
        (collectLocaleCandidates
          ((if cv ≠ "" then [cv] else []) ++ (if qv ≠ "" then [qv] else []) ++
            parseAcceptLanguageCandidates al ++ [cfg.defaultLocale])).find?
          (fun c => cfg.supported.contains c) with
    | some c =>
      have hc : cfg.supported.contains c = true := List.find?_some hfind
      dsimp only
      rw [if_neg (fun h => h.2 hc)]
    | none =>
      have hdmem :
          cfg.defaultLocale ∈
            collectLocaleCandidates
              ((if cv ≠ "" then [cv] else []) ++ (if qv ≠ "" then [qv] else []) ++
                parseAcceptLanguageCandidates al ++ [cfg.defaultLocale]) :=
        default_mem_collect _ _ hdne hnorm
      have hnc : cfg.supported.contains cfg.defaultLocale = false := by
        have h := List.find?_eq_none.mp hfind _ hdmem
        simpa using h
      have hnotmem : ¬(cfg.supported.contains cfg.defaultLocale = true) := by
        rw [hnc]
        exact Bool.false_ne_true
      dsimp only
      rw [if_neg hdne, if_pos ⟨hsup, hnotmem⟩]
  · decide

/-- C6 witness: the equivalence applied to the concrete configuration of the
specification's locale scenario. -/
theorem c6_locale_negotiation_witness :
    resolveLocale ⟨"en", ["en", "fr-ca"]⟩ "c" "q" "fr-CA,fr;q=0.9,en;q=0.8" =
      specResolveLocale ⟨"en", ["en", "fr-ca"]⟩ "c" "q" "fr-CA,fr;q=0.9,en;q=0.8" :=
  c6_locale_negotiation.1 ⟨"en", ["en", "fr-ca"]⟩ "c" "q" "fr-CA,fr;q=0.9,en;q=0.8"
    (by decide) (by decide) (by decide)

end Hydra
